import Mathlib

/-!
Verification of the dataset-sampling / quiz-generation pipeline.

The development shallowly embeds the JavaScript sources:
  * `Ready`   — src/1.Ready/1.Test/app.js and the shared pickLines helper
  * `Aim`     — src/2.Aim/2.Test/app.js and src/2.Aim/2.Test/util.js
  * `Shoot`   — src/3.Shoot/TEST 101/util.js and CreateTest.js
  * `ZipApp`  — the zip-archive creation script

JavaScript values are modelled as follows: machine numbers used as array
indices and counters are `Nat`; the `undefined` produced by an out-of-range
array access is modelled by an explicit default value; functions that throw
return `Except`.
-/

/-! ### Definitions -/

namespace Ready

/-- Stand-in for the JavaScript `undefined` value that an out-of-range
array access produces (it never occurs on the inputs the theorems cover). -/
def jsUndefined : String := ""

/-- Embedding of lodash `_.sortedUniq` (src/1.Ready/1.Test/app.js, line 130):
removes consecutive duplicate elements of a list. -/
def sortedUniq : List Nat → List Nat
  | [] => []
  | a :: rest =>
    match rest with
    | [] => [a]
    | b :: _ => if a = b then sortedUniq rest else a :: sortedUniq rest

/-- The numeric ascending sort `selectedLineNumbers.sort((a, b) => a - b)`
(src/1.Ready/1.Test/app.js, line 131), modelled by insertion sort. -/
def jsSortAsc (l : List Nat) : List Nat := List.insertionSort (· ≤ ·) l

/-- Lines 127-137 of src/1.Ready/1.Test/app.js: the randomly sampled line
numbers (the random sample itself is the parameter `sample`) are sorted
ascending, deduplicated with `_.sortedUniq`, and line number 0 is prepended
(`unshift`) whenever `indexOf(0) === -1`. -/
def selectedLineNumbers (sample : List Nat) : List Nat :=
  let s := sortedUniq (jsSortAsc sample)
  if 0 ∈ s then s else 0 :: s

/-- Embedding of `pickLines` (src/unnamed/part_000, lines 23-27):
`linesToPick.map((lineNumber) => srcArray[lineNumber])`. -/
def pickLines (linesToPick : List Nat) (srcArray : List String) : List String :=
  linesToPick.map (fun lineNumber => srcArray.getD lineNumber jsUndefined)

/-- The list of lines written for one version by `processOutFiles`
(src/1.Ready/1.Test/app.js, lines 143-146); the file content is these lines
joined with a newline. -/
def outFileLines (sample : List Nat) (studentLines : List String) : List String :=
  pickLines (selectedLineNumbers sample) studentLines

end Ready

namespace Shoot

/-! Embedding of src/3.Shoot/TEST 101/util.js. JavaScript strings handled by
the string algorithms are modelled as `List Char`; a `String` is converted at
the boundary through `String.data`. -/

/-- The comma on which `linkText.split(",")` splits. -/
def commaChar : Char := Char.ofNat 44

/-- JavaScript `String.prototype.split(",")`: splits on every comma, keeping
empty pieces (so the empty string yields one empty piece). -/
def splitComma : List Char → List (List Char)
  | [] => [[]]
  | c :: rest =>
    match splitComma rest with
    | [] => if c = commaChar then [[], []] else [[c]]
    | h :: t => if c = commaChar then [] :: h :: t else (c :: h) :: t

/-- JavaScript `String.prototype.trim()`: removes leading and trailing
whitespace (src/3.Shoot/TEST 101/util.js, line 63). -/
def jsTrim (l : List Char) : List Char :=
  ((l.dropWhile Char.isWhitespace).reverse.dropWhile Char.isWhitespace).reverse

/-- The opening angle bracket of the regex `^<(.*)>; rel="next"$`. -/
def ltChars : List Char := ['<']

/-- The constant tail `>; rel="next"` of the regex `^<(.*)>; rel="next"$`. -/
def relNextSuffixChars : List Char :=
  ['>', ';', ' ', 'r', 'e', 'l', '=', '"', 'n', 'e', 'x', 't', '"']

/-- Whether a trimmed link entry matches the anchored regex
`^<(.*)>; rel="next"$`: it must start with `<` and end with `>; rel="next"`
(a 13-character tail; both cannot overlap, see `isRelNextEntry_iff`). -/
def isRelNextEntry (e : List Char) : Bool :=
  ltChars.isPrefixOf e && relNextSuffixChars.isSuffixOf e

/-- The greedy capture group of `^<(.*)>; rel="next"$`: everything strictly
between the opening `<` and the final `>; rel="next"`. -/
def extractNextUrl (e : List Char) : List Char :=
  (e.drop 1).take (e.length - 14)

/-- One iteration of the matcher `nextRegEx.exec(links[i].trim())`
(src/3.Shoot/TEST 101/util.js, line 63). -/
def regexNextMatch (e : List Char) : Option (List Char) :=
  if isRelNextEntry e then some (extractNextUrl e) else none

/-- The `for` loop of `nextURL` (util.js lines 62-68): the first entry the
regex matches wins (`break`), otherwise the result stays `null`. -/
def findFirstNext : List (List Char) → Option (List Char)
  | [] => none
  | e :: rest =>
    match regexNextMatch e with
    | some u => some u
    | none => findFirstNext rest

/-- The trimmed comma-separated entries of a Link header. -/
def linkEntries (t : String) : List (List Char) :=
  (splitComma t.data).map jsTrim

/-- Embedding of `nextURL` (src/3.Shoot/TEST 101/util.js, lines 57-71).
A `null`/`undefined` header is `none`; the guard `if (linkText)` also
rejects the empty string (falsy in JavaScript). -/
def nextURL (linkText : Option String) : Option String :=
  match linkText with
  | none => none
  | some t =>
    if t.data.isEmpty then none
    else (findFirstNext (linkEntries t)).map (fun u => String.mk u)

end Shoot


namespace HashJs

/-- The version identifiers exported by src/1.Ready/0.Create-Zip/hash.js. -/
def HASHES : List String := ["iG6Zp4WDF", "Z8lZJChRtn", "F29R1ibztX"]

end HashJs

/-- The empty string (the falsy JavaScript `""`). -/
def emptyString : String := ""

namespace Aim

/-! Embedding of src/2.Aim/2.Test/util.js and src/2.Aim/2.Test/app.js. -/

/-- The thrown message of `parseStudentAnswerCsv` (util.js line 53). -/
def parseErrorMsg : String := "Could not parse the CSV file."

/-- The result object produced by `Baby.parseFiles`: the parsed 2D data array
and the list of parse-error messages. -/
structure CsvParseResult where
  data : List (List String)
  errors : List String

/-- Embedding of `parseStudentAnswerCsv` (src/2.Aim/2.Test/util.js, lines
41-57): given the parse result, it either logs every error message to the
console and throws, or returns the data unchanged. The returned pair is the
console-error log together with the thrown error or the data. -/
def parseStudentAnswerCsv (csv : CsvParseResult) :
    List String × Except String (List (List String)) :=
  if csv.errors.length > 0 then
    (csv.errors, Except.error parseErrorMsg)
  else ([], Except.ok csv.data)

/-- The column header mapping of src/2.Aim/2.Test/util.js, lines 18-30. -/
def headerName : Nat := 1

/-- Column index of `Year`. -/
def headerYear : Nat := 3

/-- Column index of `Publisher`. -/
def headerPublisher : Nat := 5

/-- Column index of `NA_Sales`. -/
def headerNA : Nat := 6

/-- Column index of `JP_Sales`. -/
def headerJP : Nat := 8

/-- Column index of `Global_Sales`. -/
def headerGlobal : Nat := 10

/-- A cell access `row[col]`; an out-of-range access yields the stand-in for
the JavaScript `undefined`. -/
def getCell (row : List String) (col : Nat) : String := row.getD col emptyString

/-- Numeric value of a run of decimal digit characters. -/
def digitsVal (l : List Char) : Nat :=
  l.foldl (fun n c => n * 10 + (c.toNat - 48)) 0

/-- The decimal point. -/
def dotChar : Char := Char.ofNat 46

/-- JavaScript `parseFloat` on the plain `digits[.digits]` strings of the
sales columns, with IEEE-754 floating point abstracted to exact rationals
(no theorem below depends on a numeric value). -/
def parseFloatQ (s : String) : Rat :=
  let ip := s.data.takeWhile (fun c => !(c == dotChar))
  match s.data.dropWhile (fun c => !(c == dotChar)) with
  | [] => (digitsVal ip : Rat)
  | _ :: frac => (digitsVal ip : Rat) + (digitsVal frac : Rat) / ((10 : Rat) ^ frac.length)

/-- JavaScript `Number.prototype.toFixed(2)` on the modelled rationals:
round to the nearest hundredth and print with exactly two decimals. -/
def toFixed2 (q : Rat) : String :=
  let n : Int := round (q * 100)
  let a := n.natAbs
  (if n < 0 then "-" else emptyString) ++ toString (a / 100) ++ "." ++
    (if a % 100 < 10 then "0" else emptyString) ++ toString (a % 100)

/-- JavaScript `String.prototype.includes`: substring test. -/
def containsSub (s sub : List Char) : Bool :=
  s.tails.any (fun t => sub.isPrefixOf t)

/-- The name pool of question 2 (app.js line 112). -/
def questionNames : List String := ["Pokemon", "Wii", "Super Mario", "Grand Theft Auto"]

/-- The random draws of one version's question generation: the year of
question 1 (`Math.floor(Math.random() * 20) + 1985`), the name index of
question 2 (`Math.floor(Math.random() * names.length)`), the coin of
question 3 (`Math.random() < 0.5`), and the x, y of question 4. -/
structure QuestionRand where
  year : Nat
  nameIndex : Fin 4
  isNintendo : Bool
  randX : Nat
  randY : Nat

/-- `questionOne` (src/2.Aim/2.Test/app.js, lines 75-101): sums, over the
non-header rows whose `Year` cell equals the drawn year, the difference
between `NA_Sales` and `JP_Sales` (the JavaScript loose `==` between the
string cell and the number is modelled by comparison with the canonical
decimal rendering), and stores the fields `q1q` and `q1a`. -/
def questionOne (csv : List (List String)) (year : Nat) : List (String × String) :=
  let totalSales := (csv.drop 1).foldl
    (fun acc row =>
      if getCell row headerYear = toString year then
        acc + (parseFloatQ (getCell row headerNA) - parseFloatQ (getCell row headerJP))
      else acc) (0 : Rat)
  [("q1q", "For video games released in the year \"" ++ toString year ++
      "\", how many more sales units were made in North America compared to Japan?"),
   ("q1a", toFixed2 totalSales)]

/-- `questionTwo` (app.js, lines 109-134): counts the non-header rows whose
`Name` cell contains the drawn name, and stores `q2q` and `q2a`. -/
def questionTwo (csv : List (List String)) (nameIndex : Fin 4) : List (String × String) :=
  let name := questionNames.get (Fin.cast (by decide) nameIndex)
  let numGames := (csv.drop 1).foldl
    (fun n row => if containsSub (getCell row headerName).data name.data then n + 1 else n)
    (0 : Nat)
  [("q2q", "How many video games contain \"" ++ name ++ "\" in their name?"),
   ("q2a", toString numGames)]

/-- `questionThree` (app.js, lines 142-169): sums the `Global_Sales` of the
non-header rows published (or not published) by Nintendo, and stores `q3q`
and `q3a`. -/
def questionThree (csv : List (List String)) (isNintendo : Bool) : List (String × String) :=
  let conditionText := if isNintendo then "are" else "are <strong>not</strong>"
  let totalSales := (csv.drop 1).foldl
    (fun acc row =>
      if (isNintendo && getCell row headerPublisher == "Nintendo") ||
          (!isNintendo && !(getCell row headerPublisher == "Nintendo")) then
        acc + parseFloatQ (getCell row headerGlobal)
      else acc) (0 : Rat)
  [("q3q", "What are the total global sales for games that " ++ conditionText ++
      " published by Nintendo?"),
   ("q3a", toFixed2 totalSales)]

/-- `questionFour` (app.js, lines 177-193): the arithmetic question
`8x + y`, storing `q4q` and `q4a`. -/
def questionFour (randX randY : Nat) : List (String × String) :=
  let solution := 8 * randX + randY
  [("q4q", "What is 8x + y, where x = " ++ toString randX ++ " and y = " ++
      toString randY ++ "?"),
   ("q4a", toString solution)]

/-- The object `studentQA[hash]` after the four question generators of one
version have run (app.js, lines 46-67): the eight fields in insertion
order. -/
def studentQAEntry (csv : List (List String)) (r : QuestionRand) : List (String × String) :=
  questionOne csv r.year ++ questionTwo csv r.nameIndex ++
    questionThree csv r.isNintendo ++ questionFour r.randX r.randY

/-- The object written by `printWhenDone` once every version has finished
(app.js, lines 200-211): it maps each hash of `HASHES` to that version's
generated entry; `csvFor` gives each version's parsed dataset and `rnd` the
random draws used for it. -/
def studentQAFile (csvFor : String → List (List String)) (rnd : String → QuestionRand) :
    List (String × List (String × String)) :=
  HashJs.HASHES.map (fun h => (h, studentQAEntry (csvFor h) (rnd h)))

/-- The eight field names every written QA entry carries. -/
def qaKeys : List String := ["q1q", "q1a", "q2q", "q2a", "q3q", "q3a", "q4q", "q4a"]

/-- A concrete draw of the question randomness, for concrete runs. -/
def sampleRand : QuestionRand :=
  { year := 1985, nameIndex := 0, isNintendo := true, randX := 3, randY := 2 }

end Aim


namespace Shoot

/-- The module-level state of src/3.Shoot/TEST 101/util.js: the `init` flag
and the `auth` string (lines 15-16). -/
structure UtilState where
  inited : Bool
  auth : String

/-- The state before `init(token)` was ever called. -/
def initialState : UtilState := { inited := false, auth := emptyString }

/-- `exports.init` (util.js, lines 29-32): sets `auth` to the bearer header
value and the flag to true. -/
def utilInit (token : String) : UtilState :=
  { inited := true, auth := "Bearer " ++ token }

/-- The thrown message when the module was not initialized (lines 17-18). -/
def initErrMsg : String :=
  "util.js has not been initialized with a valid Canvas API access token."

/-- The standard request header (util.js, lines 40-49). -/
structure CanvasHeader where
  contentType : String
  authorization : String

/-- `getStandardHeader` (util.js, lines 40-49): throws unless `init` was
called, else returns the Content-Type / Authorization header object. -/
def getStandardHeader (st : UtilState) : Except String CanvasHeader :=
  if st.inited then
    Except.ok { contentType := "application/json", authorization := st.auth }
  else Except.error initErrMsg

/-- A JSON value, for the `data` payloads of the request-argument objects. -/
inductive JVal where
  | null : JVal
  | bool (b : Bool) : JVal
  | num (n : Int) : JVal
  | str (s : String) : JVal
  | arr (elems : List JVal) : JVal
  | obj (fields : List (String × JVal)) : JVal

/-- A request-argument object: the headers and an optional `data` payload. -/
structure ApiArgs where
  headers : CanvasHeader
  data : Option JVal

/-- `exports.standardArgs` (util.js, lines 78-80). -/
def standardArgs (st : UtilState) : Except String ApiArgs :=
  (getStandardHeader st).map (fun h => { headers := h, data := none })

/-- `exports.newReportArgs` (util.js, lines 87-98). -/
def newReportArgs (st : UtilState) : Except String ApiArgs :=
  (getStandardHeader st).map (fun h =>
    { headers := h,
      data := some (JVal.obj
        [("include", JVal.str ("file")),
         ("quiz_report", JVal.obj
           [("includes_all_versions", JVal.bool true),
            ("report_type", JVal.str ("student_analysis"))])]) })

/-- `exports.newQuizArgs` (util.js, lines 111-137); numeric fields rendered
through template literals become strings, as in the source. -/
def newQuizArgs (st : UtilState) (title description : String)
    (pointsPossible numberOfAttempts group : Int) (hideRes : Option String) :
    Except String ApiArgs :=
  (getStandardHeader st).map (fun h =>
    { headers := h,
      data := some (JVal.obj
        [("quiz", JVal.obj
          [("title", JVal.str title),
           ("description", JVal.str description),
           ("type", JVal.str ("assignment")),
           ("points_possible", JVal.str (toString pointsPossible)),
           ("scoring_policy", JVal.str ("keep_highest")),
           ("show_correct_answers", JVal.bool false),
           ("allowed_attempts", JVal.str (toString numberOfAttempts)),
           ("published", JVal.bool false),
           ("only_visible_to_overrides", JVal.bool true),
           ("assignment_group_id", JVal.num group),
           ("hide_results", match hideRes with
             | none => JVal.null
             | some s => JVal.str s)])]) })

/-- `exports.editQuizArgs` (util.js, lines 145-152). -/
def editQuizArgs (st : UtilState) (quizObject : JVal) : Except String ApiArgs :=
  (getStandardHeader st).map (fun h =>
    { headers := h, data := some (JVal.obj [("quiz", quizObject)]) })

/-- `exports.saveQuizArgs` (util.js, lines 160-167). -/
def saveQuizArgs (st : UtilState) (id : Int) : Except String ApiArgs :=
  (getStandardHeader st).map (fun h =>
    { headers := h, data := some (JVal.obj [("quizzes", JVal.arr [JVal.num id])]) })

/-- `exports.newQuestionArgs` (util.js, lines 179-204). -/
def newQuestionArgs (st : UtilState) (position : Int) (questionName : String)
    (pointsPossible : Int) (questionText answerText : String) : Except String ApiArgs :=
  (getStandardHeader st).map (fun h =>
    { headers := h,
      data := some (JVal.obj
        [("question", JVal.obj
          [("position", JVal.num position),
           ("name", JVal.str questionName),
           ("question_type", JVal.str ("short_answer_question")),
           ("question_text", JVal.str ("<p>" ++ questionText ++ "</p>")),
           ("points_possible", JVal.str (toString pointsPossible)),
           ("answers", JVal.arr
             [JVal.obj
               [("answer_text", JVal.str answerText),
                ("answer_weight", JVal.num 100)]])])]) })

/-- `exports.newLongQuestionArgs` (util.js, lines 215-233). -/
def newLongQuestionArgs (st : UtilState) (position : Int) (questionName : String)
    (pointsPossible : Int) (questionText : String) : Except String ApiArgs :=
  (getStandardHeader st).map (fun h =>
    { headers := h,
      data := some (JVal.obj
        [("question", JVal.obj
          [("position", JVal.num position),
           ("name", JVal.str questionName),
           ("question_type", JVal.str ("essay_question")),
           ("question_text", JVal.str ("<p>" ++ questionText ++ "</p>")),
           ("points_possible", JVal.str (toString pointsPossible))])]) })

/-- `exports.newBlankQuestionArgs` (util.js, lines 242-253). -/
def newBlankQuestionArgs (st : UtilState) (position : Int) (questionText : String) :
    Except String ApiArgs :=
  (getStandardHeader st).map (fun h =>
    { headers := h,
      data := some (JVal.obj
        [("question", JVal.obj
          [("position", JVal.num position),
           ("question_type", JVal.str ("text_only_question")),
           ("question_text", JVal.str ("<p>" ++ questionText ++ "</p>"))])]) })

/-- `exports.newFileQuestionArgs` (util.js, lines 262-273). -/
def newFileQuestionArgs (st : UtilState) (position : Int) (questionText : String) :
    Except String ApiArgs :=
  (getStandardHeader st).map (fun h =>
    { headers := h,
      data := some (JVal.obj
        [("question", JVal.obj
          [("position", JVal.num position),
           ("question_type", JVal.str ("file_upload_question")),
           ("question_text", JVal.str ("<p>" ++ questionText ++ "</p>"))])]) })

/-- `exports.editQuestionArgs` (util.js, lines 281-288). -/
def editQuestionArgs (st : UtilState) (questionObject : JVal) : Except String ApiArgs :=
  (getStandardHeader st).map (fun h =>
    { headers := h, data := some (JVal.obj [("question", questionObject)]) })

/-- `exports.newOverrideArgs` (util.js, lines 298-310). -/
def newOverrideArgs (st : UtilState) (startDate lockAndDueDate : String)
    (studentIds : List Int) : Except String ApiArgs :=
  (getStandardHeader st).map (fun h =>
    { headers := h,
      data := some (JVal.obj
        [("assignment_override", JVal.obj
          [("unlock_at", JVal.str startDate),
           ("lock_at", JVal.str lockAndDueDate),
           ("due_at", JVal.str lockAndDueDate),
           ("student_ids", JVal.arr (studentIds.map JVal.num))])]) })

/-- `exports.newPublishQuizArgs` (util.js, lines 317-327). -/
def newPublishQuizArgs (st : UtilState) : Except String ApiArgs :=
  (getStandardHeader st).map (fun h =>
    { headers := h,
      data := some (JVal.obj
        [("quiz", JVal.obj
          [("published", JVal.bool true),
           ("notify_of_update", JVal.bool false)])]) })

/-- Whether a request-argument constructor returned without throwing. -/
def argsOk (e : Except String ApiArgs) : Prop := ∃ a, e = Except.ok a

/-- The Authorization header carried by a successfully constructed
argument object. -/
def argsAuth (e : Except String ApiArgs) : Option String :=
  match e with
  | Except.ok a => some a.headers.authorization
  | Except.error _ => none

/-- A JavaScript value stored under a key of a QA entry: a string or
`null`; an absent key (JavaScript `undefined`) is a failed lookup. -/
inductive QaVal where
  | null : QaVal
  | str (s : String) : QaVal
deriving DecidableEq

/-- One version's object in the QA file, with its keys in insertion order. -/
abbrev QaEntry := List (String × QaVal)

/-- The whole QA object: version identifier to entry. -/
abbrev QaObject := List (String × QaEntry)

/-- JavaScript truthiness of a possibly absent QA value: `undefined`,
`null` and the empty string are falsy. -/
def truthy : Option QaVal → Bool
  | none => false
  | some QaVal.null => false
  | some (QaVal.str s) => !(s == emptyString)

/-- The letter q. -/
def qChar : Char := Char.ofNat 113

/-- The letter a. -/
def aChar : Char := Char.ofNat 97

/-- `qRE.test(key)` for `qRE = /q$/` (util.js, line 404). -/
def endsWithQ (key : String) : Bool :=
  match key.data.getLast? with
  | some c => c == qChar
  | none => false

/-- `key.replace(/.$/, "a")` (util.js, line 411): replaces the last
character by the letter a (no-op on the empty string, as `.` needs one
character). -/
def answerKey (key : String) : String :=
  match key.data with
  | [] => key
  | l => String.mk (l.dropLast ++ [aChar])

/-- The test `aVal === undefined || aVal === null || aVal === ""`
(util.js, line 414) applied to the answer key of a question key. -/
def missingAnswer (entry : QaEntry) (key : String) : Bool :=
  match entry.lookup (answerKey key) with
  | none => true
  | some QaVal.null => true
  | some (QaVal.str s) => s == emptyString

/-- Key of the download file name. -/
def fileNameKey : String := "fileName"

/-- Key of the download file URL. -/
def fileUrlKey : String := "fileUrl"

/-- The errors `checkTruthy` collects for one version (util.js, lines
407-427): one message per question key with a missing answer, in key
order, then one message when `fileName` or `fileUrl` is falsy. -/
def entryErrors (auid : String) (entry : QaEntry) : List String :=
  (entry.filter (fun kv => endsWithQ kv.fst && missingAnswer entry kv.fst)).map
      (fun kv => auid ++ " - Missing or invalid answer for key: " ++ answerKey kv.fst) ++
    (if truthy (entry.lookup fileNameKey) && truthy (entry.lookup fileUrlKey) then []
     else [auid ++ ": Missing fileName or fileUrl"])

/-- `exports.checkTruthy` (util.js, lines 403-430), as the list of collected
error messages: the returned result object carries an `errors` field exactly
when this list is nonempty, because `addError` creates the field on the
first message it pushes (lines 438-443). -/
def checkTruthy (qa : QaObject) : List String :=
  (qa.map (fun e => entryErrors e.fst e.snd)).flatten

end Shoot


namespace CreateTest

/-! Embedding of src/3.Shoot/TEST 101/CreateTest.js. HTTP is modelled by a
response-status function and by the trace of Canvas API calls a run issues. -/

/-- Configuration constant (CreateTest.js, line 57). -/
def STARTING_Q_NUMBER : Nat := 1

/-- Configuration constant (CreateTest.js, line 67). -/
def NUMBER_OF_QUESTIONS_PER_QUIZ : Nat := 4

/-- Configuration constant (CreateTest.js, line 37). -/
def NUM_VERSIONS : Nat := 3

/-- One Canvas API call of `createQuizzes` and its helpers, tagged with the
version it belongs to. -/
inductive CanvasAction where
  | postQuiz (version : String) : CanvasAction
  | logQuizError (version : String) : CanvasAction
  | postQuestion (version : String) (position : Nat) : CanvasAction
  | postOverride (version : String) : CanvasAction
  | putPublish (version : String) : CanvasAction
deriving DecidableEq

/-- The calls `async.eachSeries` issues for one version (CreateTest.js,
lines 129-200): the quiz POST always happens; when its response status is
not 200 the version only logs an error and finishes
(`return versionDone()`); on 200 the four questions are added at positions
`STARTING_Q_NUMBER ..`, the assignment override is posted, and the publish
PUT is sent. `status` maps a version to the status code of its quiz POST. -/
def processVersion (status : String → Nat) (version : String) : List CanvasAction :=
  CanvasAction.postQuiz version ::
    (if status version ≠ 200 then [CanvasAction.logQuizError version]
     else ((List.range NUMBER_OF_QUESTIONS_PER_QUIZ).map
         (fun i => CanvasAction.postQuestion version (STARTING_Q_NUMBER + i))) ++
       [CanvasAction.postOverride version, CanvasAction.putPublish version])

/-- The whole trace of `createQuizzes` (CreateTest.js, lines 124-208):
the versions are processed in series, each contributing its calls. -/
def createQuizzes (versions : List String) (status : String → Nat) : List CanvasAction :=
  (versions.map (processVersion status)).flatten

/-- The gate of CreateTest.js, lines 109-116: when `checkTruthy` reported
any error, the script logs them and calls `process.exit()` before
`getCanvasUserIds`/`createQuizzes` run; otherwise the run proceeds to the
quiz-creation trace for the QA object's versions. -/
def createTestTrace (qa : Shoot.QaObject) (status : String → Nat) : List CanvasAction :=
  if Shoot.checkTruthy qa = [] then createQuizzes (qa.map (fun e => e.fst)) status
  else []

/-- One enrolled student as returned by the Canvas user listing: the Canvas
id and the numeric value `parseInt(s.sis_user_id)` of the SIS user id. -/
structure CanvasUser where
  id : Nat
  sis : Nat

/-- The version a student is assigned to (CreateTest.js, lines 251-252):
`HASHES[parseInt(s.sis_user_id) % NUM_VERSIONS]`. -/
def assignVersion (sis : Nat) : String :=
  HashJs.HASHES.getD (sis % NUM_VERSIONS) emptyString

/-- The body of `data.forEach` in `getCanvasUserIds` (CreateTest.js, lines
250-259), restricted to the id accumulation: the student's Canvas id is
pushed onto the id list of the version assigned to the student. -/
def addUser (qa : List (String × List Nat)) (u : CanvasUser) : List (String × List Nat) :=
  qa.map (fun p => if p.fst = assignVersion u.sis then (p.fst, p.snd ++ [u.id]) else p)

/-- The id lists before any user was saved: one empty bucket per version
(the lazy `if (!studentsQA[fileHash].id)` initialisation of lines 253-256). -/
def emptyBuckets : List (String × List Nat) :=
  HashJs.HASHES.map (fun h => (h, ([] : List Nat)))

/-- The id buckets after `getCanvasUserIds` has walked every page of the
user listing, the pages concatenated into one user list. -/
def saveUsers (users : List CanvasUser) : List (String × List Nat) :=
  users.foldl addUser emptyBuckets

/-- A concrete response assignment for concrete runs: version vA fails. -/
def sampleStatus : String → Nat := fun s => if s = ("vA" : String) then 500 else 200

end CreateTest

namespace ZipApp

/-! Embedding of the zip-archive creation script (src/unnamed/part_001).
`async.eachLimit(HASHES, NUM_VERSIONS, ...)` is modelled as a transition
system: a pending hash may start once fewer than the limit are running
(the archive write of that version is then in progress), and a running
hash finishes when its output stream closes. The final callback printing
"All files zipped" fires when nothing is pending or running. -/

/-- Configuration constant (src/unnamed/part_001, line 29). -/
def NUM_VERSIONS : Nat := 3

/-- The state of the `async.eachLimit` iteration: hashes not yet started,
hashes whose archive write is in progress, and hashes whose output stream
has closed. -/
structure ZipState where
  pending : List String
  running : List String
  closed : List String
deriving DecidableEq

/-- One step of the bounded-parallel iteration. -/
inductive ZipStep (limit : Nat) : ZipState → ZipState → Prop where
  | start (h : String) (p r c : List String) :
      r.length < limit →
      ZipStep limit ⟨h :: p, r, c⟩ ⟨p, h :: r, c⟩
  | close (h : String) (p r c : List String) :
      h ∈ r →
      ZipStep limit ⟨p, r, c⟩ ⟨p, r.erase h, h :: c⟩

/-- Reachability of the iteration states. -/
def zipReachable (limit : Nat) : ZipState → ZipState → Prop :=
  Relation.ReflTransGen (ZipStep limit)

/-- The initial state: every hash of `HASHES` pending. -/
def zipInit : ZipState := ⟨HashJs.HASHES, [], []⟩

/-- The final callback that prints "All files zipped" runs exactly when
every item is done: nothing pending, nothing running. -/
def allZippedPrinted (s : ZipState) : Prop := s.pending = [] ∧ s.running = []

end ZipApp

/-! ### Theorems -/

namespace Ready

theorem mem_of_mem_sortedUniq {x : Nat} : ∀ {l : List Nat}, x ∈ sortedUniq l → x ∈ l
  | [], h => by simp [sortedUniq] at h
  | a :: rest, h => by
    match rest with
    | [] => simpa [sortedUniq] using h
    | b :: t =>
      rw [sortedUniq] at h
      by_cases hab : a = b
      · rw [if_pos hab] at h
        exact List.mem_cons_of_mem _ (mem_of_mem_sortedUniq h)
      · rw [if_neg hab] at h
        rcases List.mem_cons.1 h with h | h
        · exact h ▸ List.mem_cons_self _ _
        · exact List.mem_cons_of_mem _ (mem_of_mem_sortedUniq h)

theorem sortedUniq_pairwise_lt :
    ∀ {l : List Nat}, l.Sorted (· ≤ ·) → (sortedUniq l).Pairwise (· < ·)
  | [], _ => by simp [sortedUniq]
  | a :: rest, h => by
    match rest with
    | [] => simp [sortedUniq]
    | b :: t =>
      rw [sortedUniq]
      have htail : (b :: t).Sorted (· ≤ ·) := h.of_cons
      by_cases hab : a = b
      · rw [if_pos hab]
        exact sortedUniq_pairwise_lt htail
      · rw [if_neg hab]
        refine List.pairwise_cons.2 ⟨?_, sortedUniq_pairwise_lt htail⟩
        intro x hx
        have hxmem : x ∈ b :: t := mem_of_mem_sortedUniq hx
        have hax : a ≤ x := List.rel_of_sorted_cons h x hxmem
        have hab' : a ≤ b := List.rel_of_sorted_cons h b (List.mem_cons_self _ _)
        rcases List.mem_cons.1 hxmem with rfl | hxt
        · omega
        · have hbx : b ≤ x := List.rel_of_sorted_cons htail x hxt
          omega

theorem selectedLineNumbers_pairwise_lt (sample : List Nat) :
    (selectedLineNumbers sample).Pairwise (· < ·) := by
  unfold selectedLineNumbers
  have hs : (sortedUniq (jsSortAsc sample)).Pairwise (· < ·) :=
    sortedUniq_pairwise_lt (List.sorted_insertionSort _ sample)
  by_cases h0 : 0 ∈ sortedUniq (jsSortAsc sample)
  · simpa [h0] using hs
  · rw [if_neg h0]
    refine List.pairwise_cons.2 ⟨?_, hs⟩
    intro x hx
    have : x ≠ 0 := fun h => h0 (h ▸ hx)
    omega

theorem mem_selectedLineNumbers {x : Nat} {sample : List Nat}
    (h : x ∈ selectedLineNumbers sample) : x = 0 ∨ x ∈ sample := by
  unfold selectedLineNumbers at h
  by_cases h0 : 0 ∈ sortedUniq (jsSortAsc sample)
  · rw [if_pos h0] at h
    exact Or.inr ((List.perm_insertionSort _ sample).mem_iff.1 (mem_of_mem_sortedUniq h))
  · rw [if_neg h0] at h
    rcases List.mem_cons.1 h with h | h
    · exact Or.inl h
    · exact Or.inr ((List.perm_insertionSort _ sample).mem_iff.1 (mem_of_mem_sortedUniq h))

theorem selectedLineNumbers_head (sample : List Nat) :
    (selectedLineNumbers sample).head? = some 0 := by
  unfold selectedLineNumbers
  by_cases h0 : 0 ∈ sortedUniq (jsSortAsc sample)
  · rw [if_pos h0]
    have hs : (sortedUniq (jsSortAsc sample)).Pairwise (· < ·) :=
      sortedUniq_pairwise_lt (List.sorted_insertionSort _ sample)
    match hl : sortedUniq (jsSortAsc sample) with
    | [] => rw [hl] at h0; simp at h0
    | a :: t =>
      rw [hl] at h0 hs
      rcases List.mem_cons.1 h0 with h | h
      · simp [h.symm]
      · have := (List.pairwise_cons.1 hs).1 0 h
        omega
  · rw [if_neg h0]
    rfl

theorem map_getD_shift (a : String) (t : List String) (d : String) :
    ∀ (is : List Nat), (∀ m ∈ is, 0 < m) →
      is.map (fun m => (a :: t).getD m d) = (is.map (fun m => m - 1)).map (fun m => t.getD m d)
  | [], _ => rfl
  | m :: is, h => by
    obtain ⟨k, rfl⟩ : ∃ k, m = k + 1 := by
      have := h m (List.mem_cons_self _ _); exact ⟨m - 1, by omega⟩
    have ih := map_getD_shift a t d is (fun x hx => h x (List.mem_cons_of_mem _ hx))
    simp only [List.map_cons, ih, List.getD_cons_succ, Nat.add_sub_cancel]

theorem pairwise_lt_map_pred :
    ∀ (is : List Nat), (∀ m ∈ is, 0 < m) → is.Pairwise (· < ·) →
      (is.map (fun m => m - 1)).Pairwise (· < ·)
  | [], _, _ => by simp
  | m :: is, hpos, hp => by
    rcases List.pairwise_cons.1 hp with ⟨hhead, htail⟩
    refine List.pairwise_cons.2 ⟨?_, pairwise_lt_map_pred is
      (fun x hx => hpos x (List.mem_cons_of_mem _ hx)) htail⟩
    intro y hy
    rcases List.mem_map.1 hy with ⟨x, hx, rfl⟩
    have h1 := hpos m (List.mem_cons_self _ _)
    have h2 := hhead x hx
    show m - 1 < x - 1
    omega

theorem pickLines_sublist :
    ∀ (lines : List String) (is : List Nat), is.Pairwise (· < ·) →
      (∀ n ∈ is, n < lines.length) → List.Sublist (pickLines is lines) lines := by
  intro lines
  induction lines with
  | nil =>
    intro is _ hb
    match is with
    | [] => exact List.nil_sublist _
    | n :: t => exact absurd (hb n (List.mem_cons_self _ _)) (by simp)
  | cons a t ih =>
    intro is hp hb
    match is with
    | [] => exact List.nil_sublist _
    | 0 :: is' =>
      rcases List.pairwise_cons.1 hp with ⟨hhead, htail⟩
      have hpos : ∀ m ∈ is', 0 < m := fun m hm => hhead m hm
      have hshift := map_getD_shift a t jsUndefined is' hpos
      have hsub : List.Sublist (pickLines (is'.map (fun m => m - 1)) t) t := by
        refine ih _ (pairwise_lt_map_pred is' hpos htail) ?_
        intro n hn
        rcases List.mem_map.1 hn with ⟨x, hx, rfl⟩
        have hx1 := hb x (List.mem_cons_of_mem _ hx)
        have hx2 := hpos x hx
        simp only [List.length_cons] at hx1
        show x - 1 < t.length
        omega
      show List.Sublist ((a :: t).getD 0 jsUndefined :: is'.map (fun m => (a :: t).getD m jsUndefined)) (a :: t)
      rw [List.getD_cons_zero, hshift]
      exact List.Sublist.cons₂ a hsub
    | (n + 1) :: is' =>
      rcases List.pairwise_cons.1 hp with ⟨hhead, htail⟩
      have hpos : ∀ m ∈ (n + 1) :: is', 0 < m := by
        intro m hm
        rcases List.mem_cons.1 hm with rfl | hm
        · omega
        · have := hhead m hm; omega
      have hshift := map_getD_shift a t jsUndefined ((n + 1) :: is') hpos
      have hsub : List.Sublist (pickLines (((n + 1) :: is').map (fun m => m - 1)) t) t := by
        refine ih _ (pairwise_lt_map_pred _ hpos hp) ?_
        intro m hm
        rcases List.mem_map.1 hm with ⟨x, hx, rfl⟩
        have hx1 := hb x hx
        have hx2 := hpos x hx
        simp only [List.length_cons] at hx1
        show x - 1 < t.length
        omega
      show List.Sublist (pickLines ((n + 1) :: is') (a :: t)) (a :: t)
      unfold pickLines
      rw [hshift]
      exact List.Sublist.cons a hsub

/-- C1: for every master file (nonempty, so it has a header line) and every
random sample of line numbers, the first line written by `processOutFiles`
is the header row (line 0 of the master file); moreover when 0 is absent
from the sorted deduplicated sample it is prepended. -/
theorem header_always_first (sample : List Nat) (studentLines : List String)
    (hne : 0 < studentLines.length) :
    (outFileLines sample studentLines).head? = studentLines.head? ∧
      (0 ∉ sortedUniq (jsSortAsc sample) →
        selectedLineNumbers sample = 0 :: sortedUniq (jsSortAsc sample)) := by
  constructor
  · have hhead := selectedLineNumbers_head sample
    match hl : selectedLineNumbers sample with
    | [] => rw [hl] at hhead; simp at hhead
    | n :: t =>
      rw [hl] at hhead
      have hn : n = 0 := by simpa using hhead
      subst hn
      match studentLines, hne with
      | a :: rest, _ =>
        simp [outFileLines, pickLines, hl]
  · intro h0
    unfold selectedLineNumbers
    rw [if_neg h0]

/-- Witness for `header_always_first` at a concrete sample and master file. -/
theorem header_always_first_witness :
    0 < (["Rank,Name", "1,A", "2,B"] : List String).length ∧
      ((outFileLines [2, 2, 1] ["Rank,Name", "1,A", "2,B"]).head? =
          (["Rank,Name", "1,A", "2,B"] : List String).head? ∧
        (0 ∉ sortedUniq (jsSortAsc [2, 2, 1]) →
          selectedLineNumbers [2, 2, 1] = 0 :: sortedUniq (jsSortAsc [2, 2, 1]))) :=
  ⟨by decide, header_always_first [2, 2, 1] ["Rank,Name", "1,A", "2,B"] (by decide)⟩

/-- C2: the emitted lines of an output file form a subsequence of the master
file's lines: the selected indices are strictly ascending (sorted and
duplicate-free), each index is in range, and the emitted line list is a
sublist of the master line list, so no line is invented, duplicated or
reordered. -/
theorem outFile_sublist_of_master (sample : List Nat) (studentLines : List String)
    (hne : 0 < studentLines.length)
    (hb : ∀ n ∈ sample, n < studentLines.length) :
    (selectedLineNumbers sample).Pairwise (· < ·) ∧
      (∀ n ∈ selectedLineNumbers sample, n < studentLines.length) ∧
      List.Sublist (outFileLines sample studentLines) studentLines := by
  have hbound : ∀ n ∈ selectedLineNumbers sample, n < studentLines.length := by
    intro n hn
    rcases mem_selectedLineNumbers hn with rfl | hmem
    · exact hne
    · exact hb n hmem
  exact ⟨selectedLineNumbers_pairwise_lt sample, hbound,
    pickLines_sublist studentLines _ (selectedLineNumbers_pairwise_lt sample) hbound⟩

/-- Witness for `outFile_sublist_of_master` at a concrete sample and master file. -/
theorem outFile_sublist_of_master_witness :
    (0 < (["Rank,Name", "1,A", "2,B"] : List String).length ∧
        (∀ n ∈ [2, 2, 1], n < (["Rank,Name", "1,A", "2,B"] : List String).length)) ∧
      ((selectedLineNumbers [2, 2, 1]).Pairwise (· < ·) ∧
        (∀ n ∈ selectedLineNumbers [2, 2, 1],
            n < (["Rank,Name", "1,A", "2,B"] : List String).length) ∧
        List.Sublist (outFileLines [2, 2, 1] ["Rank,Name", "1,A", "2,B"]) ["Rank,Name", "1,A", "2,B"]) :=
  ⟨⟨by decide, by decide⟩,
    outFile_sublist_of_master [2, 2, 1] ["Rank,Name", "1,A", "2,B"] (by decide) (by decide)⟩


end Ready

namespace Shoot

theorem isRelNextEntry_iff (e : List Char) :
    isRelNextEntry e = true ↔ e = ltChars ++ extractNextUrl e ++ relNextSuffixChars := by
  constructor
  · intro h
    rw [isRelNextEntry] at h
    rcases Bool.and_eq_true_iff.1 h with ⟨hp, hs⟩
    rcases List.isPrefixOf_iff_prefix.1 hp with ⟨r, hr⟩
    rcases List.isSuffixOf_iff_suffix.1 hs with ⟨s, hsx⟩
    match s, hsx with
    | [], hsx =>
      rw [List.nil_append] at hsx
      rw [← hr] at hsx
      exact absurd (List.head_eq_of_cons_eq hsx.symm) (by decide)
    | c :: s', hsx =>
      have he : e = c :: (s' ++ relNextSuffixChars) := by
        rw [← hsx]; rfl
      have hc : c = Char.ofNat 60 ∧ r = s' ++ relNextSuffixChars := by
        rw [he] at hr
        have h1 := List.head_eq_of_cons_eq hr
        have h2 := List.tail_eq_of_cons_eq hr
        exact ⟨by rw [← h1], by simpa using h2⟩
      have hurl : extractNextUrl e = s' := by
        unfold extractNextUrl
        rw [he]
        have hlen : (c :: (s' ++ relNextSuffixChars)).length - 14 = s'.length := by
          simp [relNextSuffixChars]
        rw [hlen, List.drop_one, List.tail_cons, List.take_left]
      rw [hurl, he, hc.1]
      rfl
  · intro h
    unfold isRelNextEntry
    refine Bool.and_eq_true_iff.2 ⟨?_, ?_⟩
    · refine List.isPrefixOf_iff_prefix.2 ⟨extractNextUrl e ++ relNextSuffixChars, ?_⟩
      conv_rhs => rw [h]
      simp [List.append_assoc]
    · refine List.isSuffixOf_iff_suffix.2 ⟨ltChars ++ extractNextUrl e, ?_⟩
      conv_rhs => rw [h]

theorem findFirstNext_all_none {l : List (List Char)}
    (h : ∀ e ∈ l, isRelNextEntry e = false) : findFirstNext l = none := by
  induction l with
  | nil => rfl
  | cons e rest ih =>
    unfold findFirstNext regexNextMatch
    rw [h e (List.mem_cons_self _ _)]
    exact ih (fun x hx => h x (List.mem_cons_of_mem _ hx))

theorem findFirstNext_first_match {pre : List (List Char)} {e : List Char}
    (post : List (List Char)) (hpre : ∀ x ∈ pre, isRelNextEntry x = false)
    (he : isRelNextEntry e = true) :
    findFirstNext (pre ++ e :: post) = some (extractNextUrl e) := by
  induction pre with
  | nil =>
    simp only [List.nil_append, findFirstNext, regexNextMatch, he, if_true]
  | cons x rest ih =>
    have hx := hpre x (List.mem_cons_self _ _)
    simp only [List.cons_append, findFirstNext, regexNextMatch, hx, Bool.false_eq_true,
      if_false]
    exact ih (fun y hy => hpre y (List.mem_cons_of_mem _ hy))

/-- C3: `nextURL` returns the URL between the angle brackets of the first
comma-separated entry whose trimmed form is `<URL>; rel="next"`, and `null`
for a `null`/`undefined`/empty header or one containing no such entry.
The first conjunct characterises the regex match: an entry matches exactly
when it decomposes as `<` ++ url ++ `>; rel="next"` with the greedy capture
`extractNextUrl` equal to that url. -/
theorem nextURL_spec :
    (∀ e : List Char,
        isRelNextEntry e = true ↔ e = ltChars ++ extractNextUrl e ++ relNextSuffixChars) ∧
      nextURL none = none ∧
      (∀ t : String, t.data = [] → nextURL (some t) = none) ∧
      (∀ t : String, (∀ e ∈ linkEntries t, isRelNextEntry e = false) →
        nextURL (some t) = none) ∧
      (∀ (t : String) (pre : List (List Char)) (e : List Char) (post : List (List Char)),
        linkEntries t = pre ++ e :: post →
        (∀ x ∈ pre, isRelNextEntry x = false) →
        isRelNextEntry e = true →
        nextURL (some t) = some (String.mk (extractNextUrl e))) := by
  refine ⟨isRelNextEntry_iff, rfl, ?_, ?_, ?_⟩
  · intro t ht
    simp only [nextURL, ht]
    rfl
  · intro t hnone
    simp only [nextURL]
    by_cases hemp : t.data.isEmpty
    · rw [if_pos hemp]
    · rw [if_neg hemp, findFirstNext_all_none hnone]
      rfl
  · intro t pre e post hsplit hpre he
    have hne : ¬ t.data.isEmpty = true := by
      intro hemp
      have hdata : t.data = [] := List.isEmpty_iff.1 hemp
      have hone : linkEntries t = [[]] := by
        unfold linkEntries splitComma
        rw [hdata]
        rfl
      rw [hone] at hsplit
      cases pre with
      | nil =>
        have h1 : ([] : List Char) = e := List.head_eq_of_cons_eq hsplit
        rw [← h1] at he
        exact absurd he (by decide)
      | cons p pre' =>
        have hlen := congrArg List.length hsplit
        simp at hlen
    simp only [nextURL]
    rw [if_neg hne, hsplit, findFirstNext_first_match post hpre he]
    rfl

/-- Witness for `nextURL_spec`: a concrete header whose second entry is the
rel-next entry. -/
theorem nextURL_spec_witness :
    linkEntries (String.mk
        ['<', 'u', '1', '>', ';', ' ', 'r', 'e', 'l', '=', '"', 'p', 'r', 'e', 'v', '"', ',',
         ' ', '<', 'u', '2', '>', ';', ' ', 'r', 'e', 'l', '=', '"', 'n', 'e', 'x', 't', '"']) =
        [['<', 'u', '1', '>', ';', ' ', 'r', 'e', 'l', '=', '"', 'p', 'r', 'e', 'v', '"'],
         ['<', 'u', '2', '>', ';', ' ', 'r', 'e', 'l', '=', '"', 'n', 'e', 'x', 't', '"']] ∧
      (∀ x ∈ [['<', 'u', '1', '>', ';', ' ', 'r', 'e', 'l', '=', '"', 'p', 'r', 'e', 'v', '"']],
        isRelNextEntry x = false) ∧
      isRelNextEntry ['<', 'u', '2', '>', ';', ' ', 'r', 'e', 'l', '=', '"', 'n', 'e', 'x', 't', '"'] = true ∧
      nextURL (some (String.mk
        ['<', 'u', '1', '>', ';', ' ', 'r', 'e', 'l', '=', '"', 'p', 'r', 'e', 'v', '"', ',',
         ' ', '<', 'u', '2', '>', ';', ' ', 'r', 'e', 'l', '=', '"', 'n', 'e', 'x', 't', '"'])) =
        some (String.mk ['u', '2']) :=
  ⟨by decide, by decide, by decide,
    nextURL_spec.2.2.2.2 _
      [['<', 'u', '1', '>', ';', ' ', 'r', 'e', 'l', '=', '"', 'p', 'r', 'e', 'v', '"']]
      ['<', 'u', '2', '>', ';', ' ', 'r', 'e', 'l', '=', '"', 'n', 'e', 'x', 't', '"']
      [] (by decide) (by decide) (by decide)⟩

end Shoot

namespace Aim

/-- C4: when the parse result carries at least one error,
`parseStudentAnswerCsv` logs every error message and throws; on an
error-free parse it returns the parsed data unchanged with nothing
logged. -/
theorem parseStudentAnswerCsv_spec (csv : CsvParseResult) :
    (csv.errors ≠ [] →
        parseStudentAnswerCsv csv = (csv.errors, Except.error parseErrorMsg)) ∧
      (csv.errors = [] → parseStudentAnswerCsv csv = ([], Except.ok csv.data)) := by
  constructor
  · intro h
    unfold parseStudentAnswerCsv
    rw [if_pos (List.length_pos.mpr h)]
  · intro h
    unfold parseStudentAnswerCsv
    rw [if_neg (by simp [h])]

/-- Witness for `parseStudentAnswerCsv_spec`: an errored parse and an
error-free parse. -/
theorem parseStudentAnswerCsv_spec_witness :
    ((["row 3 is bad"] : List String) ≠ [] ∧
        parseStudentAnswerCsv ⟨[], ["row 3 is bad"]⟩ =
          (["row 3 is bad"], Except.error parseErrorMsg)) ∧
      (([] : List String) = [] ∧
        parseStudentAnswerCsv ⟨[["a", "b"]], []⟩ = ([], Except.ok [["a", "b"]])) :=
  ⟨⟨by decide, (parseStudentAnswerCsv_spec ⟨[], ["row 3 is bad"]⟩).1 (by decide)⟩,
    ⟨rfl, (parseStudentAnswerCsv_spec ⟨[["a", "b"]], []⟩).2 rfl⟩⟩

theorem lookup_map_self {α : Type} (f : String → α) :
    ∀ (l : List String), l.Nodup → ∀ h ∈ l,
      (l.map (fun x => (x, f x))).lookup h = some (f h)
  | [], _, h, hmem => absurd hmem (by simp)
  | x :: rest, hnd, h, hmem => by
    rw [List.map_cons, List.lookup_cons]
    by_cases hx : h = x
    · have : (h == x) = true := beq_iff_eq.2 hx
      rw [this, hx]
    · have : (h == x) = false := beq_eq_false_iff_ne.2 hx
      rw [this]
      have hmem' : h ∈ rest := by
        rcases List.mem_cons.1 hmem with h1 | h1
        · exact absurd h1 hx
        · exact h1
      exact lookup_map_self f rest (List.Nodup.of_cons hnd) h hmem'

/-- C7 (amended): for every version hash of `HASHES`, the QA object written
by `printWhenDone` maps the hash to that version's entry, whose fields are
exactly the eight generated question/answer fields `q1q` ... `q4a`.
The file download metadata is not part of this file. -/
theorem qaFile_entry_fields (csvFor : String → List (List String))
    (rnd : String → QuestionRand) (h : String) (hh : h ∈ HashJs.HASHES) :
    (studentQAFile csvFor rnd).lookup h =
        some (studentQAEntry (csvFor h) (rnd h)) ∧
      (studentQAEntry (csvFor h) (rnd h)).map Prod.fst = qaKeys := by
  constructor
  · exact lookup_map_self _ HashJs.HASHES (by decide) h hh
  · rfl

/-- Witness for `qaFile_entry_fields` at the first version hash. -/
theorem qaFile_entry_fields_witness :
    ("iG6Zp4WDF" : String) ∈ HashJs.HASHES ∧
      ((studentQAFile (fun _ => []) (fun _ => sampleRand)).lookup ("iG6Zp4WDF") =
          some (studentQAEntry [] sampleRand) ∧
        (studentQAEntry [] sampleRand).map Prod.fst = qaKeys) :=
  ⟨by decide, qaFile_entry_fields (fun _ => []) (fun _ => sampleRand) _ (by decide)⟩

/-- C7, the claim as frozen, is false on the code: in a concrete run the
entry written for the first version hash carries exactly the eight
question/answer fields, and the file download metadata fields `fileName`
and `fileUrl` are absent from the written QA file (they only enter the
in-memory object later, merged from the URL CSV by CreateTest.js). -/
theorem qaFile_no_file_metadata :
    ((studentQAFile (fun _ => []) (fun _ => sampleRand)).lookup ("iG6Zp4WDF")).map
        (fun e => e.map Prod.fst) = some qaKeys ∧
      Shoot.fileNameKey ∉ qaKeys ∧ Shoot.fileUrlKey ∉ qaKeys :=
  ⟨rfl, by decide, by decide⟩

end Aim

namespace Shoot

theorem argsOk_map (st : UtilState) (f : CanvasHeader → ApiArgs) :
    argsOk ((getStandardHeader st).map f) ↔ st.inited = true := by
  unfold argsOk getStandardHeader
  by_cases h : st.inited
  · simp [h, Except.map]
  · simp [h, Except.map]

theorem argsAuth_map (tok : String) (f : CanvasHeader → ApiArgs)
    (hf : ∀ h, (f h).headers = h) :
    argsAuth ((getStandardHeader (utilInit tok)).map f) = some ("Bearer " ++ tok) := by
  unfold argsAuth getStandardHeader utilInit
  simp [Except.map, hf]

/-- C8: the state starts uninitialized, `init(token)` sets the flag, every
request-argument constructor succeeds exactly when the flag is set (it
throws `initErrMsg` otherwise, through `getStandardHeader`), and every
object constructed after `init(token)` carries the Authorization header
`Bearer token`. -/
theorem requestArgs_init_and_auth (st : UtilState)
    (tok title description startDate lockAndDueDate qname qtext atext : String)
    (pts att grp pos qid : Int) (hideRes : Option String) (qobj : JVal)
    (sids : List Int) :
    (initialState.inited = false ∧ (utilInit tok).inited = true) ∧
      ((argsOk (standardArgs st) ↔ st.inited = true) ∧
        (argsOk (newReportArgs st) ↔ st.inited = true) ∧
        (argsOk (newQuizArgs st title description pts att grp hideRes) ↔ st.inited = true) ∧
        (argsOk (editQuizArgs st qobj) ↔ st.inited = true) ∧
        (argsOk (saveQuizArgs st qid) ↔ st.inited = true) ∧
        (argsOk (newQuestionArgs st pos qname pts qtext atext) ↔ st.inited = true) ∧
        (argsOk (newLongQuestionArgs st pos qname pts qtext) ↔ st.inited = true) ∧
        (argsOk (newBlankQuestionArgs st pos qtext) ↔ st.inited = true) ∧
        (argsOk (newFileQuestionArgs st pos qtext) ↔ st.inited = true) ∧
        (argsOk (editQuestionArgs st qobj) ↔ st.inited = true) ∧
        (argsOk (newOverrideArgs st startDate lockAndDueDate sids) ↔ st.inited = true) ∧
        (argsOk (newPublishQuizArgs st) ↔ st.inited = true)) ∧
      (argsAuth (standardArgs (utilInit tok)) = some ("Bearer " ++ tok) ∧
        argsAuth (newReportArgs (utilInit tok)) = some ("Bearer " ++ tok) ∧
        argsAuth (newQuizArgs (utilInit tok) title description pts att grp hideRes) =
          some ("Bearer " ++ tok) ∧
        argsAuth (editQuizArgs (utilInit tok) qobj) = some ("Bearer " ++ tok) ∧
        argsAuth (saveQuizArgs (utilInit tok) qid) = some ("Bearer " ++ tok) ∧
        argsAuth (newQuestionArgs (utilInit tok) pos qname pts qtext atext) =
          some ("Bearer " ++ tok) ∧
        argsAuth (newLongQuestionArgs (utilInit tok) pos qname pts qtext) =
          some ("Bearer " ++ tok) ∧
        argsAuth (newBlankQuestionArgs (utilInit tok) pos qtext) = some ("Bearer " ++ tok) ∧
        argsAuth (newFileQuestionArgs (utilInit tok) pos qtext) = some ("Bearer " ++ tok) ∧
        argsAuth (editQuestionArgs (utilInit tok) qobj) = some ("Bearer " ++ tok) ∧
        argsAuth (newOverrideArgs (utilInit tok) startDate lockAndDueDate sids) =
          some ("Bearer " ++ tok) ∧
        argsAuth (newPublishQuizArgs (utilInit tok)) = some ("Bearer " ++ tok)) :=
  ⟨⟨rfl, rfl⟩,
    ⟨argsOk_map st _, argsOk_map st _, argsOk_map st _, argsOk_map st _, argsOk_map st _,
      argsOk_map st _, argsOk_map st _, argsOk_map st _, argsOk_map st _, argsOk_map st _,
      argsOk_map st _, argsOk_map st _⟩,
    ⟨argsAuth_map tok _ (fun _ => rfl), argsAuth_map tok _ (fun _ => rfl),
      argsAuth_map tok _ (fun _ => rfl), argsAuth_map tok _ (fun _ => rfl),
      argsAuth_map tok _ (fun _ => rfl), argsAuth_map tok _ (fun _ => rfl),
      argsAuth_map tok _ (fun _ => rfl), argsAuth_map tok _ (fun _ => rfl),
      argsAuth_map tok _ (fun _ => rfl), argsAuth_map tok _ (fun _ => rfl),
      argsAuth_map tok _ (fun _ => rfl), argsAuth_map tok _ (fun _ => rfl)⟩⟩

end Shoot

namespace Shoot

theorem entryErrors_ne_nil_iff (auid : String) (entry : QaEntry) :
    entryErrors auid entry ≠ [] ↔
      ((∃ kv ∈ entry, endsWithQ kv.fst = true ∧ missingAnswer entry kv.fst = true) ∨
        truthy (entry.lookup fileNameKey) = false ∨
        truthy (entry.lookup fileUrlKey) = false) := by
  have hA : ((entry.filter (fun kv => endsWithQ kv.fst && missingAnswer entry kv.fst)).map
        (fun kv => auid ++ " - Missing or invalid answer for key: " ++ answerKey kv.fst) =
          []) ↔
      ¬ (∃ kv ∈ entry, endsWithQ kv.fst = true ∧ missingAnswer entry kv.fst = true) := by
    rw [List.map_eq_nil_iff, List.filter_eq_nil_iff]
    constructor
    · rintro hall ⟨kv, hkv, h1, h2⟩
      exact hall kv hkv (Bool.and_eq_true_iff.2 ⟨h1, h2⟩)
    · intro hne kv hkv hb
      exact hne ⟨kv, hkv, (Bool.and_eq_true_iff.1 hb).1, (Bool.and_eq_true_iff.1 hb).2⟩
  have hB : ((if truthy (entry.lookup fileNameKey) && truthy (entry.lookup fileUrlKey) then
          ([] : List String)
        else [auid ++ ": Missing fileName or fileUrl"]) = []) ↔
      ¬ (truthy (entry.lookup fileNameKey) = false ∨
          truthy (entry.lookup fileUrlKey) = false) := by
    cases h1 : truthy (entry.lookup fileNameKey) <;>
      cases h2 : truthy (entry.lookup fileUrlKey) <;> simp [h1, h2]
  unfold entryErrors
  rw [ne_eq, List.append_eq_nil, hA, hB, not_and_or, not_not, not_not]

end Shoot

namespace CreateTest

/-- C5: `checkTruthy` reports errors exactly when some version entry has a
question key (ending in the letter q) whose answer key (last character
replaced by the letter a) is absent, null or empty, or lacks a truthy
`fileName` or `fileUrl`; and when it reports any error, CreateTest exits at
the gate, so no quiz-creation request is issued. -/
theorem checkTruthy_gate (qa : Shoot.QaObject) (status : String → Nat) :
    (Shoot.checkTruthy qa ≠ [] ↔
        ∃ p ∈ qa,
          (∃ kv ∈ p.snd, Shoot.endsWithQ kv.fst = true ∧
              Shoot.missingAnswer p.snd kv.fst = true) ∨
            Shoot.truthy (p.snd.lookup Shoot.fileNameKey) = false ∨
            Shoot.truthy (p.snd.lookup Shoot.fileUrlKey) = false) ∧
      (Shoot.checkTruthy qa ≠ [] → createTestTrace qa status = []) := by
  constructor
  · unfold Shoot.checkTruthy
    rw [ne_eq, List.flatten_eq_nil_iff]
    push_neg
    constructor
    · rintro ⟨x, hx, hxne⟩
      rcases List.mem_map.1 hx with ⟨p, hp, rfl⟩
      exact ⟨p, hp, (Shoot.entryErrors_ne_nil_iff p.fst p.snd).1 hxne⟩
    · rintro ⟨p, hp, hcond⟩
      exact ⟨Shoot.entryErrors p.fst p.snd, List.mem_map_of_mem _ hp,
        (Shoot.entryErrors_ne_nil_iff p.fst p.snd).2 hcond⟩
  · intro h
    unfold createTestTrace
    rw [if_neg h]

/-- Witness for `checkTruthy_gate`: a QA object whose only version is
missing an answer (and the file fields); no quiz POST is issued. -/
theorem checkTruthy_gate_witness :
    Shoot.checkTruthy [("v1", [("q1q", Shoot.QaVal.str ("text"))])] ≠ [] ∧
      createTestTrace [("v1", [("q1q", Shoot.QaVal.str ("text"))])] (fun _ => 200) = [] :=
  ⟨by decide,
    (checkTruthy_gate [("v1", [("q1q", Shoot.QaVal.str ("text"))])] (fun _ => 200)).2
      (by decide)⟩

theorem mem_processVersion_fail {a : CanvasAction} {status : String → Nat} {w : String}
    (hw : status w ≠ 200) (h : a ∈ processVersion status w) :
    a = CanvasAction.postQuiz w ∨ a = CanvasAction.logQuizError w := by
  unfold processVersion at h
  rw [if_pos hw] at h
  simpa using h

/-- C6: when the quiz POST of a version returns a status other than 200,
CreateTest logs an error for that version and moves on: no question POST,
no override POST and no publish PUT happen for that version, while every
version (including the later ones) still gets its quiz POST. -/
theorem failed_quiz_skips_version (versions : List String) (status : String → Nat)
    (v : String) (hv : v ∈ versions) (hfail : status v ≠ 200) :
    (∀ i, CanvasAction.postQuestion v i ∉ createQuizzes versions status) ∧
      CanvasAction.postOverride v ∉ createQuizzes versions status ∧
      CanvasAction.putPublish v ∉ createQuizzes versions status ∧
      CanvasAction.logQuizError v ∈ createQuizzes versions status ∧
      (∀ w ∈ versions, CanvasAction.postQuiz w ∈ createQuizzes versions status) := by
  have habsent : ∀ a : CanvasAction,
      (∀ w, status w = 200 → a ∉ processVersion status w) →
      (∀ w, a ≠ CanvasAction.postQuiz w) → (∀ w, a ≠ CanvasAction.logQuizError w) →
      a ∉ createQuizzes versions status := by
    intro a hok hq hl hmem
    rcases List.mem_flatten.1 hmem with ⟨l, hl2, hal⟩
    rcases List.mem_map.1 hl2 with ⟨w, hwv, rfl⟩
    by_cases hw : status w ≠ 200
    · rcases mem_processVersion_fail hw hal with h | h
      · exact hq w h
      · exact hl w h
    · exact hok w (not_not.1 hw) hal
  refine ⟨?_, ?_, ?_, ?_, ?_⟩
  · intro i
    refine habsent _ ?_ (by intro w h; cases h) (by intro w h; cases h)
    intro w hw hmem
    unfold processVersion at hmem
    rw [if_neg (by rw [hw]; exact fun h => h rfl)] at hmem
    simp at hmem
    rcases hmem with ⟨j, hj, rfl, rfl⟩
    exact hfail hw
  · refine habsent _ ?_ (by intro w h; cases h) (by intro w h; cases h)
    intro w hw hmem
    unfold processVersion at hmem
    rw [if_neg (by rw [hw]; exact fun h => h rfl)] at hmem
    simp at hmem
    subst hmem
    exact hfail hw
  · refine habsent _ ?_ (by intro w h; cases h) (by intro w h; cases h)
    intro w hw hmem
    unfold processVersion at hmem
    rw [if_neg (by rw [hw]; exact fun h => h rfl)] at hmem
    simp at hmem
    subst hmem
    exact hfail hw
  · refine List.mem_flatten.2 ⟨processVersion status v, List.mem_map_of_mem _ hv, ?_⟩
    unfold processVersion
    rw [if_pos hfail]
    simp
  · intro w hw
    refine List.mem_flatten.2 ⟨processVersion status w, List.mem_map_of_mem _ hw, ?_⟩
    unfold processVersion
    exact List.mem_cons_self _ _

end CreateTest

namespace CreateTest

/-- Witness for `failed_quiz_skips_version`: two versions, the first one's
quiz POST answers 500. -/
theorem failed_quiz_skips_version_witness :
    ("vA" : String) ∈ (["vA", "vB"] : List String) ∧ sampleStatus ("vA") ≠ 200 ∧
      ((∀ i, CanvasAction.postQuestion ("vA") i ∉ createQuizzes ["vA", "vB"] sampleStatus) ∧
        CanvasAction.postOverride ("vA") ∉ createQuizzes ["vA", "vB"] sampleStatus ∧
        CanvasAction.putPublish ("vA") ∉ createQuizzes ["vA", "vB"] sampleStatus ∧
        CanvasAction.logQuizError ("vA") ∈ createQuizzes ["vA", "vB"] sampleStatus ∧
        (∀ w ∈ (["vA", "vB"] : List String),
          CanvasAction.postQuiz w ∈ createQuizzes ["vA", "vB"] sampleStatus)) :=
  ⟨by decide, by decide,
    failed_quiz_skips_version ["vA", "vB"] sampleStatus ("vA") (by decide) (by decide)⟩

theorem lookup_addUser (qa : List (String × List Nat)) (u : CanvasUser) (h : String) :
    (addUser qa u).lookup h = (qa.lookup h).map
      (fun l => if assignVersion u.sis = h then l ++ [u.id] else l) := by
  induction qa with
  | nil => rfl
  | cons p rest ih =>
    obtain ⟨k, l⟩ := p
    have hpair : (if (k, l).fst = assignVersion u.sis then
          ((k, l).fst, (k, l).snd ++ [u.id]) else (k, l)) =
        (k, if k = assignVersion u.sis then l ++ [u.id] else l) := by
      by_cases hc : k = assignVersion u.sis <;> simp [hc]
    unfold addUser
    rw [List.map_cons, hpair, List.lookup_cons, List.lookup_cons]
    by_cases hh : h = k
    · have hb : (h == k) = true := beq_iff_eq.2 hh
      rw [hb]
      by_cases hc : k = assignVersion u.sis
      · rw [if_pos hc]
        have hch : assignVersion u.sis = h := hc.symm.trans hh.symm
        simp [hch]
      · rw [if_neg hc]
        have hch : ¬(assignVersion u.sis = h) := by
          intro he
          exact hc (he.trans hh).symm
        simp [hch]
    · have hb : (h == k) = false := beq_eq_false_iff_ne.2 hh
      rw [hb]
      exact ih

theorem lookup_foldl_addUser :
    ∀ (users : List CanvasUser) (qa : List (String × List Nat)) (h : String) (l : List Nat),
      qa.lookup h = some l →
      (users.foldl addUser qa).lookup h =
        some (l ++ (users.filter (fun u => assignVersion u.sis = h)).map (fun u => u.id))
  | [], qa, h, l, hq => by simpa using hq
  | u :: rest, qa, h, l, hq => by
    have h1 : (addUser qa u).lookup h =
        some (if assignVersion u.sis = h then l ++ [u.id] else l) := by
      rw [lookup_addUser, hq]
      rfl
    have h2 := lookup_foldl_addUser rest (addUser qa u) h _ h1
    rw [List.foldl_cons, h2]
    by_cases hc : assignVersion u.sis = h
    · rw [if_pos hc]
      simp [List.filter_cons, hc]
    · rw [if_neg hc]
      simp [List.filter_cons, hc]

/-- C9: student-to-version assignment is the deterministic function
`sis ↦ HASHES[parseInt(sis) % NUM_VERSIONS]` of the SIS user id alone: the
id bucket of each version is exactly the ids of the users that map to it,
in enrolment order — so two runs over the same user listing build the same
assignment — and every user's version lies in `HASHES`, which contains it
exactly once, so the versions partition the students. -/
theorem version_assignment (users : List CanvasUser) (h : String)
    (hh : h ∈ HashJs.HASHES) :
    (saveUsers users).lookup h =
        some ((users.filter (fun u => assignVersion u.sis = h)).map (fun u => u.id)) ∧
      ∀ u : CanvasUser, assignVersion u.sis ∈ HashJs.HASHES ∧
        HashJs.HASHES.count (assignVersion u.sis) = 1 := by
  constructor
  · have h0 : emptyBuckets.lookup h = some [] :=
      Aim.lookup_map_self (fun _ => ([] : List Nat)) HashJs.HASHES (by decide) h hh
    have := lookup_foldl_addUser users emptyBuckets h [] h0
    simpa using this
  · intro u
    have hlt : u.sis % NUM_VERSIONS < HashJs.HASHES.length := by
      have h3 : HashJs.HASHES.length = NUM_VERSIONS := by decide
      rw [h3]
      exact Nat.mod_lt _ (by decide)
    have hmem : assignVersion u.sis ∈ HashJs.HASHES := by
      unfold assignVersion
      rw [List.getD_eq_getElem _ _ hlt]
      exact List.getElem_mem hlt
    exact ⟨hmem, List.count_eq_one_of_mem (by decide) hmem⟩

/-- Witness for `version_assignment`: two users with SIS ids 7 and 3. -/
theorem version_assignment_witness :
    ("Z8lZJChRtn" : String) ∈ HashJs.HASHES ∧
      ((saveUsers [⟨10, 7⟩, ⟨11, 3⟩]).lookup ("Z8lZJChRtn") =
          some ((([⟨10, 7⟩, ⟨11, 3⟩] : List CanvasUser).filter
              (fun u => assignVersion u.sis = ("Z8lZJChRtn" : String))).map (fun u => u.id)) ∧
        ∀ u : CanvasUser, assignVersion u.sis ∈ HashJs.HASHES ∧
          HashJs.HASHES.count (assignVersion u.sis) = 1) :=
  ⟨by decide, version_assignment [⟨10, 7⟩, ⟨11, 3⟩] ("Z8lZJChRtn") (by decide)⟩

end CreateTest

namespace ZipApp

/-- C10: along every possible run of `async.eachLimit(HASHES, NUM_VERSIONS,
...)` at most `NUM_VERSIONS` archive writes are in progress at any point;
at all times the pending, in-progress and closed hashes together are a
permutation of `HASHES` (each hash processed exactly once); and when the
final callback prints "All files zipped", every archive's output stream
has closed — the closed hashes are exactly the `HASHES`, without
duplicates. -/
theorem zip_bounded_parallel (s : ZipState)
    (hreach : zipReachable NUM_VERSIONS zipInit s) :
    s.running.length ≤ NUM_VERSIONS ∧
      (s.pending ++ s.running ++ s.closed).Perm HashJs.HASHES ∧
      (allZippedPrinted s → s.closed.Perm HashJs.HASHES ∧ s.closed.Nodup) := by
  have key : s.running.length ≤ NUM_VERSIONS ∧
      (s.pending ++ s.running ++ s.closed).Perm HashJs.HASHES := by
    unfold zipReachable at hreach
    induction hreach with
    | refl => exact ⟨by decide, by simp [zipInit]⟩
    | tail hab hstep ih =>
      rcases hstep with ⟨h, p, r, c, hlt⟩ | ⟨h, p, r, c, hmem⟩
      · refine ⟨by simp only [List.length_cons]; exact hlt, ?_⟩
        refine List.Perm.trans ?_ ih.2
        show (p ++ (h :: r) ++ c).Perm ((h :: p) ++ r ++ c)
        simp only [List.append_assoc, List.cons_append]
        exact List.perm_middle
      · refine ⟨?_, ?_⟩
        · have her := List.length_erase_of_mem hmem
          have hle : r.length ≤ NUM_VERSIONS := ih.1
          show (r.erase h).length ≤ NUM_VERSIONS
          omega
        · refine List.Perm.trans ?_ ih.2
          show (p ++ r.erase h ++ (h :: c)).Perm (p ++ r ++ c)
          have h2 : r.Perm (h :: r.erase h) := List.perm_cons_erase hmem
          have h1 : (r.erase h ++ (h :: c)).Perm (r ++ c) := by
            refine List.Perm.trans List.perm_middle ?_
            refine List.Perm.trans ?_ (h2.symm.append_right c)
            simp
          simpa [List.append_assoc] using h1.append_left p
  refine ⟨key.1, key.2, fun hp => ?_⟩
  rcases hp with ⟨h1, h2⟩
  have hperm := key.2
  rw [h1, h2] at hperm
  simp at hperm
  exact ⟨hperm, hperm.symm.nodup (by decide)⟩

/-- Witness for `zip_bounded_parallel` at the reachable initial state. -/
theorem zip_bounded_parallel_witness :
    zipReachable NUM_VERSIONS zipInit zipInit ∧
      (zipInit.running.length ≤ NUM_VERSIONS ∧
        (zipInit.pending ++ zipInit.running ++ zipInit.closed).Perm HashJs.HASHES ∧
        (allZippedPrinted zipInit → zipInit.closed.Perm HashJs.HASHES ∧ zipInit.closed.Nodup)) :=
  ⟨Relation.ReflTransGen.refl, zip_bounded_parallel zipInit Relation.ReflTransGen.refl⟩

end ZipApp
